import Mathlib

/-!
Shallow embedding of the JSX runtime in `src/jsx-runtime.ts`:
the node-descriptor data model (`createElement`), the component-identity
keyed state store (`useState` and the getter/setter pair it returns), the
recursive renderer (`renderToDOM`), and the mount/update controller
(`mount` and the setter-triggered re-render).

Modelling conventions:
* JS values that appear in props and state slots are the inductive `PVal`.
  JS `===` is modelled by decidable equality on `PVal`; object and function
  values carry an allocation identity (`Nat`) so that equality of two
  distinct allocations is `false`, as reference equality demands.
* JS function identity for components is a `Nat`; vnode kinds are the sum
  `Kind.tag` / `Kind.comp`, and a component environment maps the identity
  to its body.  Component bodies are restricted to the hook discipline the
  runtime expects: a list of `useState` calls followed by a pure view
  (`(Nat → PVal) → VNode`, given the getter valuation), or a body that
  throws.  The type of views guarantees a body cannot reach any runtime
  state except through its hooks.
* The module-level mutable variables (`currentComponent`, `componentStates`,
  `stateIndex`, `rootVNode`, `rootContainer`, `renderedNode`) and the single
  host container are gathered in the explicit state `Sys`, threaded through
  every operation.  The container's child list plays the role of the DOM
  parent: a node "has a parent" iff it is currently a child of the container.
* Native nodes carry an allocation id drawn from `Sys.nextId`
  (`document.createElement` / `createTextNode` / `createDocumentFragment`).
  Appending a DocumentFragment splices its children, as in the DOM.
* JS exceptions are the `RRes.err`/`SRes.err` results; the state they carry
  is the state at the moment of the throw (heap mutations persist).
* Recursion in `renderToDOM` is fuel-indexed (JS has no termination
  guarantee); running out of fuel is a distinct outcome from a thrown
  exception.
-/

namespace JsxRuntime

/-- A JavaScript value as it can appear in props bags and state slots.
`obj` and `func` carry an allocation identity so that decidable equality
on `PVal` coincides with JS reference equality `===`.  Style objects carry
their (string-valued) entries alongside the identity. -/
inductive PVal where
  | undef : PVal
  | null : PVal
  | bool (b : Bool) : PVal
  | num (n : Int) : PVal
  | str (s : String) : PVal
  | func (id : Nat) : PVal
  | obj (id : Nat) (kvs : List (String × String)) : PVal
deriving DecidableEq, Repr

/-- JS `String(value)` on the values of `PVal`. -/
def pvalToString : PVal → String
  | .undef => "undefined"
  | .null => "null"
  | .bool true => "true"
  | .bool false => "false"
  | .num n => toString n
  | .str s => s
  | .func _ => "function"
  | .obj _ _ => "[object Object]"

/-- JS truthiness on the values of `PVal`. -/
def truthy : PVal → Bool
  | .undef => false
  | .null => false
  | .bool b => b
  | .num n => decide (n ≠ 0)
  | .str s => decide (s ≠ "")
  | .func _ => true
  | .obj _ _ => true

/-- A props bag: a JS object, modelled as an association list in insertion
order (keys are unique in any bag built by the factory). -/
abbrev Props := List (String × PVal)

/-- The `type` field of a VNode: a host tag name or a component function
(identified by its reference identity). -/
inductive Kind where
  | tag (name : String) : Kind
  | comp (id : Nat) : Kind
deriving DecidableEq, Repr

mutual
/-- A VNode as produced by `createElement`: `{ type, props, children }`. -/
inductive VNode where
  | mk (kind : Kind) (props : Props) (children : List Child) : VNode

/-- A child entry of a VNode: a nested descriptor, a string, a number,
or the `null` / `undefined` that `createElement` filters out. -/
inductive Child where
  | node (v : VNode) : Child
  | text (s : String) : Child
  | num (n : Int) : Child
  | cnull : Child
  | cundef : Child
end

def VNode.kind : VNode → Kind
  | .mk k _ _ => k

def VNode.props : VNode → Props
  | .mk _ p _ => p

def VNode.children : VNode → List Child
  | .mk _ _ c => c

/-- An argument position of the variadic `createElement(..., ...children)`:
either a single child value or an array of children (which `.flat()`
splices in place, one level deep). -/
inductive Arg where
  | single (c : Child) : Arg
  | arr (cs : List Child) : Arg

/-- `children.flat()`: one level of flattening over the variadic arguments. -/
def flattenOne : List Arg → List Child
  | [] => []
  | .single c :: rest => c :: flattenOne rest
  | .arr cs :: rest => cs ++ flattenOne rest

/-- Whether a child entry is `null` or `undefined` (the entries that
`createElement` drops). -/
def isNullish : Child → Bool
  | .cnull => true
  | .cundef => true
  | _ => false

/-- `createElement(type, props, ...children)` from `src/jsx-runtime.ts`:
normalize `null` props to `{}`, flatten the children one level, filter the
`null`/`undefined` entries, and package the VNode.  Pure. -/
def createElement (k : Kind) (props : Option Props) (children : List Arg) : VNode :=
  VNode.mk k (props.getD []) ((flattenOne children).filter (fun c => !(isNullish c)))

/-- `createFragment(props, ...children)`: sugar for
`createElement('fragment', props || {}, ...children)`. -/
def createFragment (props : Option Props) (children : List Arg) : VNode :=
  createElement (Kind.tag "fragment") (some (props.getD [])) children

/-! ### State store -/

/-- A key of the `componentStates` map: the value of `currentComponent` at
hook time — `none` models the JS `null` the variable is initialized to,
`some f` a component function reference. -/
abbrev CKey := Option Nat

/-- `Map.get` on the component-states map. -/
def lookupStates : List (CKey × List PVal) → CKey → Option (List PVal)
  | [], _ => none
  | (k', v') :: t, k => if k' = k then some v' else lookupStates t k

/-- `Map.set` on the component-states map: update in place if the key is
present (JS Map keeps insertion order), otherwise append. -/
def putStates : List (CKey × List PVal) → CKey → List PVal → List (CKey × List PVal)
  | [], k, v => [(k, v)]
  | (k', v') :: t, k, v => if k' = k then (k, v) :: t else (k', v') :: putStates t k v

/-- Reading `states[i]` on a JS array: indices beyond the length (and
holes) read as `undefined`. -/
def getSlot (l : List PVal) (i : Nat) : PVal :=
  l.getD i PVal.undef

/-- Writing `states[i] = v` on a JS array: grows the array as needed, the
intermediate holes reading as `undefined`. -/
def setSlot : List PVal → Nat → PVal → List PVal
  | [], 0, v => [v]
  | [], i + 1, v => PVal.undef :: setSlot [] i v
  | _ :: xs, 0, v => v :: xs
  | x :: xs, i + 1, v => x :: setSlot xs i v

/-! ### Native nodes and the container -/

/-- A native (DOM) node as the renderer builds it.  Each node records its
allocation id; an element keeps its attributes (`setAttribute` writes), the
live properties written by the `value`/`checked`/`disabled` branch, its
event listeners, its `className` property, its per-property style map
(keyed by the camelCase name the code writes through the host style
object), and its children. -/
inductive NNode where
  | text (id : Nat) (s : String) : NNode
  | elem (id : Nat) (tag : String) (attrs : List (String × String))
      (propsSet : List (String × PVal)) (listeners : List (String × Nat))
      (className : Option String) (style : List (String × String))
      (children : List NNode) : NNode
  | frag (id : Nat) (children : List NNode) : NNode

/-- The allocation id of a native node. -/
def NNode.nid : NNode → Nat
  | .text i _ => i
  | .elem i _ _ _ _ _ _ _ => i
  | .frag i _ => i

/-- What inserting a node contributes to its new parent's child list: a
DocumentFragment is spliced (its children move, the fragment itself stays
parentless), any other node is inserted as itself. -/
def spliceOf : NNode → List NNode
  | .frag _ ks => ks
  | n => [n]

/-- `parent.appendChild(n)`, with DocumentFragment splicing. -/
def appendChild (cs : List NNode) (n : NNode) : List NNode :=
  cs ++ spliceOf n

/-- `parent.replaceChild(n, old)` on the container, `old` given by id
(node ids are unique, so at most one entry matches); replacing with a
DocumentFragment splices its children. -/
def replaceInContainer (oldId : Nat) (n : NNode) : List NNode → List NNode
  | [] => []
  | m :: ms =>
      if m.nid = oldId then spliceOf n ++ replaceInContainer oldId n ms
      else m :: replaceInContainer oldId n ms

/-! ### The runtime state -/

/-- The module-level mutable state of `jsx-runtime.ts`, together with the
single host container of the scenario and an id allocator for created
native nodes.  `onMountedCalls` logs each `_onMounted` invocation as
(callback identity, element id). -/
structure Sys where
  currentComponent : CKey
  componentStates : List (CKey × List PVal)
  stateIndex : Nat
  rootVNode : Option VNode
  rootBound : Bool
  renderedNode : Option Nat
  container : List NNode
  nextId : Nat
  onMountedCalls : List (Nat × Nat)

/-- The state at module load: every variable `null`/`0`/empty. -/
def Sys.init : Sys :=
  { currentComponent := none
    componentStates := []
    stateIndex := 0
    rootVNode := none
    rootBound := false
    renderedNode := none
    container := []
    nextId := 0
    onMountedCalls := [] }

/-- The body of `useState(initialValue)` up to the construction of the
getter/setter pair: key the store by `currentComponent` (whatever it is,
`null` included — the source performs no check), create the slot list on
first use, initialize the slot if it currently reads `undefined`, and
advance `stateIndex`.  Returns the (key, slot index) pair that the
returned getter/setter closures capture. -/
def useStateM (initV : PVal) (s : Sys) : (CKey × Nat) × Sys :=
  let key := s.currentComponent
  let cs0 := if (lookupStates s.componentStates key).isSome then s.componentStates
             else putStates s.componentStates key []
  let states := (lookupStates cs0 key).getD []
  let index := s.stateIndex
  let states' := if getSlot states index = PVal.undef then setSlot states index initV
                 else states
  ((key, index),
    { s with componentStates := putStates cs0 key states'
             stateIndex := s.stateIndex + 1 })

/-- The getter returned by `useState`: reads the captured slot at call
time through the (stable) array held in the map. -/
def hookGet (key : CKey) (idx : Nat) (s : Sys) : PVal :=
  getSlot ((lookupStates s.componentStates key).getD []) idx

/-! ### Component bodies -/

/-- A component body: either it throws on invocation, or it performs a
fixed ordered sequence of `useState` calls (with the given initial values)
and returns the descriptor computed by a pure view from the getter
valuation.  (The source passes `props` to the body; the bodies modelled
here do not read them, which is all the claims need.) -/
inductive Body where
  | throws : Body
  | renders (inits : List PVal) (view : (Nat → PVal) → VNode) : Body

/-- A component environment: body of each component function identity. -/
abbrev CompEnv := Nat → Body

/-- Run the body's `useState` sequence, discarding the handles (the view
reads through the getter valuation instead). -/
def runHooks : List PVal → Sys → Sys
  | [], s => s
  | i :: t, s => runHooks t (useStateM i s).2

/-! ### The renderer -/

/-- Why a render ended abnormally: a JS exception was thrown, or the fuel
ran out (the source has no termination guarantee). -/
inductive RErr where
  | exnThrown : RErr
  | outOfFuel : RErr
deriving DecidableEq, Repr

/-- Result of rendering one child. -/
inductive RRes where
  | ok (n : NNode) (s : Sys) : RRes
  | err (e : RErr) (s : Sys) : RRes

/-- Result of rendering a child list into an accumulated sibling list. -/
inductive LRes where
  | ok (ns : List NNode) (s : Sys) : LRes
  | err (e : RErr) (s : Sys) : LRes

def RRes.sysOf : RRes → Sys
  | .ok _ s => s
  | .err _ s => s

def RRes.isOk : RRes → Bool
  | .ok _ _ => true
  | .err _ _ => false

/-- The attribute/property accumulator of the host-element branch. -/
structure EAcc where
  attrs : List (String × String)
  propsSet : List (String × PVal)
  listeners : List (String × Nat)
  className : Option String
  style : List (String × String)

def EAcc.empty : EAcc := ⟨[], [], [], none, []⟩

/-- `key.startsWith('on')`, computed on the character list so that it
kernel-reduces. -/
def strStartsWith (s pre : String) : Bool :=
  pre.data.isPrefixOf s.data

/-- `key.substring(2)`, on the character list. -/
def strDrop (s : String) (n : Nat) : String :=
  String.mk (s.data.drop n)

/-- `key.toLowerCase()`, on the character list. -/
def strToLower (s : String) : String :=
  String.mk (s.data.map Char.toLower)

/-- `setAttribute` semantics on an attribute list (keys are unique, as in
the DOM's attribute map): overwrite the existing entry in place, else
append. -/
def setAttr : List (String × String) → String → String → List (String × String)
  | [], k, v => [(k, v)]
  | (k', v') :: t, k, v => if k' = k then (k, v) :: t else (k', v') :: setAttr t k v

/-- Property-write semantics on the live-property list (same upsert shape). -/
def setPropV : List (String × PVal) → String → PVal → List (String × PVal)
  | [], k, v => [(k, v)]
  | (k', v') :: t, k, v => if k' = k then (k, v) :: t else (k', v') :: setPropV t k v

/-- `getAttribute`: the current value of an attribute, if present. -/
def lookupAttr (l : List (String × String)) (k : String) : Option String :=
  match l.find? (fun p => p.1 = k) with
  | some p => some p.2
  | none => none

/-- The event branch of the props loop: subscribe a callable value as a
listener under the stripped, lowercased event name; ignore the rest. -/
def eventApply (acc : EAcc) (k : String) (v : PVal) : EAcc :=
  match v with
  | .func fid => { acc with listeners := acc.listeners ++ [(strToLower (strDrop k 2), fid)] }
  | _ => acc

/-- The style branch of the props loop: a string is applied verbatim as
the `style` attribute; an object is applied entry by entry through the
host style object under the entry's (camelCase) key.  (The source also
computes a kebab-case `cssKey` here and never uses it; the write goes
through the camelCase key.)  `Object.entries(null)` raises a TypeError,
hence `none`; values of other types match no branch and do nothing. -/
def styleApply (acc : EAcc) (v : PVal) : Option EAcc :=
  match v with
  | .str sv => some { acc with attrs := setAttr acc.attrs "style" sv }
  | .obj _ kvs =>
      some { acc with style := kvs.foldl (fun st p => setAttr st p.1 p.2) acc.style }
  | .null => none
  | _ => some acc

/-- The form-property branch: write the live element property, and for
`value` on input/select/textarea also mirror the string attribute. -/
def formPropApply (tag : String) (acc : EAcc) (k : String) (v : PVal) : EAcc :=
  let acc1 := { acc with propsSet := setPropV acc.propsSet k v }
  if k = "value" ∧ (tag = "input" ∨ tag = "select" ∨ tag = "textarea") then
    { acc1 with attrs := setAttr acc1.attrs k (pvalToString v) }
  else acc1

/-- The default attribute branch: `null`/`undefined`/`false` are omitted,
`true` sets a valueless attribute, everything else is stringified. -/
def plainAttrApply (acc : EAcc) (k : String) (v : PVal) : EAcc :=
  match v with
  | .null => acc
  | .undef => acc
  | .bool false => acc
  | .bool true => { acc with attrs := setAttr acc.attrs k "" }
  | _ => { acc with attrs := setAttr acc.attrs k (pvalToString v) }

/-- One iteration of the `Object.entries(vnode.props).forEach` loop of the
host-element branch, transcribed branch for branch from the source.
Returns `none` when the iteration throws. -/
def applyProp (tag : String) (acc : EAcc) (k : String) (v : PVal) : Option EAcc :=
  if k = "key" ∨ k = "ref" ∨ k = "_onMounted" then some acc
  else if strStartsWith k "on" then some (eventApply acc k v)
  else if k = "className" then
    if truthy v then some { acc with className := some (pvalToString v) } else some acc
  else if k = "style" then styleApply acc v
  else if k = "value" ∨ k = "checked" ∨ k = "disabled" then some (formPropApply tag acc k v)
  else some (plainAttrApply acc k v)

/-- The whole props loop, in entry order. -/
def applyProps (tag : String) : List (String × PVal) → EAcc → Option EAcc
  | [], acc => some acc
  | (k, v) :: ps, acc =>
      match applyProp tag acc k v with
      | some acc' => applyProps tag ps acc'
      | none => none

/-- `vnode.props._onMounted` lookup (JS object property read). -/
def lookupProp (props : Props) (k : String) : Option PVal :=
  match props.find? (fun p => p.1 = k) with
  | some p => some p.2
  | none => none

/-- The post-mount callback step: if `props._onMounted` is a function,
record its invocation on the finished element. -/
def logMounted (props : Props) (eid : Nat) (s : Sys) : Sys :=
  match lookupProp props "_onMounted" with
  | some (.func fid) => { s with onMountedCalls := s.onMountedCalls ++ [(fid, eid)] }
  | _ => s

/-- Render a list of children left to right with a given one-child
renderer, appending each produced node (`appendChild`, so fragments
splice), stopping at the first thrown exception. -/
def renderList (r : Child → Sys → RRes) : List Child → List NNode → Sys → LRes
  | [], acc, s => .ok acc s
  | c :: cs, acc, s =>
      match r c s with
      | .ok n s' => renderList r cs (appendChild acc n) s'
      | .err e s' => .err e s'

/-- `renderToDOM(vnode)` from the source, fuel-indexed.  The branches in
source order: `undefined` → empty text node; string/number → text node;
`type === 'fragment'` → DocumentFragment with the children appended;
`typeof type === 'function'` → set the cursor (`currentComponent`,
`stateIndex = 0`), invoke the body, on normal return clear
`currentComponent` and recurse into the result (there is no try/finally:
a thrown body propagates with the cursor still set); otherwise a host
element: allocate it, run the props loop, append the rendered children,
then fire `_onMounted` if it is a function.  A `null` child (which the
factory would have filtered) throws, as `vnode.type` on `null` does. -/
def renderToDOM (env : CompEnv) : Nat → Child → Sys → RRes
  | 0, _, s => .err .outOfFuel s
  | fuel + 1, c, s =>
    match c with
    | .cundef =>
        .ok (.text s.nextId "") { s with nextId := s.nextId + 1 }
    | .text str =>
        .ok (.text s.nextId str) { s with nextId := s.nextId + 1 }
    | .num n =>
        .ok (.text s.nextId (toString n)) { s with nextId := s.nextId + 1 }
    | .cnull => .err .exnThrown s
    | .node (.mk k props children) =>
      match k with
      | .comp f =>
          let s1 := { s with currentComponent := some f, stateIndex := 0 }
          match env f with
          | .throws => .err .exnThrown s1
          | .renders inits view =>
              let s2 := runHooks inits s1
              let v := view (fun i => hookGet (some f) i s2)
              renderToDOM env fuel (.node v) { s2 with currentComponent := none }
      | .tag t =>
        if t = "fragment" then
          let fid := s.nextId
          let s0 := { s with nextId := fid + 1 }
          match renderList (fun c' s' => renderToDOM env fuel c' s') children [] s0 with
          | .ok ks s1 => .ok (.frag fid ks) s1
          | .err e s1 => .err e s1
        else
          let eid := s.nextId
          let s0 := { s with nextId := eid + 1 }
          match applyProps t props EAcc.empty with
          | none => .err .exnThrown s0
          | some acc =>
            match renderList (fun c' s' => renderToDOM env fuel c' s') children [] s0 with
            | .err e s1 => .err e s1
            | .ok kids s1 =>
                .ok (.elem eid t acc.attrs acc.propsSet acc.listeners acc.className
                      acc.style kids) (logMounted props eid s1)

/-! ### Mount/update controller -/

/-- Result of an operation that returns no node (`mount`, a setter call). -/
inductive SRes where
  | ok (s : Sys) : SRes
  | err (e : RErr) (s : Sys) : SRes

def SRes.sysOf : SRes → Sys
  | .ok s => s
  | .err _ s => s

def SRes.isOk : SRes → Bool
  | .ok _ => true
  | .err _ _ => false

/-- `mount(vnode, container)`: record the Root Binding, render, append the
produced node under the container.  The source does **not** assign
`renderedNode` here. -/
def mount (env : CompEnv) (fuel : Nat) (v : VNode) (s : Sys) : SRes :=
  let s1 := { s with rootVNode := some v, rootBound := true }
  match renderToDOM env fuel (.node v) s1 with
  | .ok n s2 => .ok { s2 with container := appendChild s2.container n }
  | .err e s2 => .err e s2

/-- Whether the node with the given id currently has a parent (is a child
of the container). -/
def hasParent (i : Nat) (s : Sys) : Bool :=
  s.container.any (fun n => n.nid = i)

/-- The setter returned by `useState`, identified by the (key, slot index)
pair its closure captures.  `states[index] === newValue` short-circuits;
otherwise the slot is written and, when a Root Binding exists, the root is
re-rendered from scratch: replace the last produced node in place when it
exists and still has a parent, else clear the container and append fresh;
finally record the new node as last produced. -/
def hookSet (env : CompEnv) (fuel : Nat) (key : CKey) (idx : Nat) (newV : PVal)
    (s : Sys) : SRes :=
  let states := (lookupStates s.componentStates key).getD []
  if getSlot states idx = newV then .ok s
  else
    let s1 := { s with componentStates := putStates s.componentStates key (setSlot states idx newV) }
    match s1.rootVNode, s1.rootBound with
    | some rv, true =>
        let s2 := { s1 with stateIndex := 0, currentComponent := none }
        match renderToDOM env fuel (.node rv) s2 with
        | .err e s3 => .err e s3
        | .ok newDom s3 =>
            let s4 :=
              match s3.renderedNode with
              | some rid =>
                  if hasParent rid s3 then
                    { s3 with container := replaceInContainer rid newDom s3.container }
                  else { s3 with container := appendChild [] newDom }
              | none => { s3 with container := appendChild [] newDom }
            .ok { s4 with renderedNode := some newDom.nid }
    | _, _ => .ok s1

/-! ## Helper lemmas -/

theorem lookupStates_putStates_self (l : List (CKey × List PVal)) (k : CKey)
    (v : List PVal) : lookupStates (putStates l k v) k = some v := by
  induction l with
  | nil => simp [putStates, lookupStates]
  | cons p t ih =>
      by_cases hp : p.1 = k
      · simp [putStates, lookupStates, hp]
      · cases p with
        | mk k' v' =>
            simp only at hp
            simp [putStates, lookupStates, hp, ih]

theorem getSlot_nil (i : Nat) : getSlot [] i = PVal.undef := by
  simp [getSlot]

theorem getSlot_setSlot_self (l : List PVal) (i : Nat) (v : PVal) :
    getSlot (setSlot l i v) i = v := by
  induction l generalizing i with
  | nil =>
      induction i with
      | zero => simp [setSlot, getSlot]
      | succ j ih => simpa [setSlot, getSlot, List.getD] using ih
  | cons x t ih =>
      cases i with
      | zero => simp [setSlot, getSlot]
      | succ j => simpa [setSlot, getSlot, List.getD] using ih j

/-- The fields of the runtime state that a render pass never writes, plus
the guarantee that a successful pass leaves the Render Cursor either as it
found it or cleared. -/
def renderInv (s s' : Sys) : Prop :=
  (s'.currentComponent = s.currentComponent ∨ s'.currentComponent = none) ∧
  s'.container = s.container ∧ s'.rootVNode = s.rootVNode ∧
  s'.rootBound = s.rootBound ∧ s'.renderedNode = s.renderedNode

theorem renderInv_refl (s : Sys) : renderInv s s :=
  ⟨Or.inl rfl, rfl, rfl, rfl, rfl⟩

theorem renderInv_trans {a b c : Sys} (h1 : renderInv a b) (h2 : renderInv b c) :
    renderInv a c := by
  obtain ⟨x1, x2, x3, x4, x5⟩ := h1
  obtain ⟨y1, y2, y3, y4, y5⟩ := h2
  refine ⟨?_, y2.trans x2, y3.trans x3, y4.trans x4, y5.trans x5⟩
  rcases y1 with y1 | y1
  · rw [y1]; exact x1
  · exact Or.inr y1

theorem useStateM_fields (i : PVal) (s : Sys) :
    (useStateM i s).2.currentComponent = s.currentComponent ∧
    (useStateM i s).2.container = s.container ∧
    (useStateM i s).2.rootVNode = s.rootVNode ∧
    (useStateM i s).2.rootBound = s.rootBound ∧
    (useStateM i s).2.renderedNode = s.renderedNode ∧
    (useStateM i s).2.nextId = s.nextId := by
  simp [useStateM]

theorem runHooks_fields (inits : List PVal) (s : Sys) :
    (runHooks inits s).currentComponent = s.currentComponent ∧
    (runHooks inits s).container = s.container ∧
    (runHooks inits s).rootVNode = s.rootVNode ∧
    (runHooks inits s).rootBound = s.rootBound ∧
    (runHooks inits s).renderedNode = s.renderedNode := by
  induction inits generalizing s with
  | nil => simp [runHooks]
  | cons i t ih =>
      have hu := useStateM_fields i s
      have ht := ih (useStateM i s).2
      simp only [runHooks]
      exact ⟨ht.1.trans hu.1, ht.2.1.trans hu.2.1, ht.2.2.1.trans hu.2.2.1,
        ht.2.2.2.1.trans hu.2.2.2.1, ht.2.2.2.2.trans hu.2.2.2.2.1⟩

theorem logMounted_fields (props : Props) (eid : Nat) (s : Sys) :
    (logMounted props eid s).currentComponent = s.currentComponent ∧
    (logMounted props eid s).container = s.container ∧
    (logMounted props eid s).rootVNode = s.rootVNode ∧
    (logMounted props eid s).rootBound = s.rootBound ∧
    (logMounted props eid s).renderedNode = s.renderedNode := by
  unfold logMounted
  split <;> simp

theorem renderList_inv (r : Child → Sys → RRes)
    (hr : ∀ c s n s', r c s = RRes.ok n s' → renderInv s s') :
    ∀ cs acc s ns s', renderList r cs acc s = LRes.ok ns s' → renderInv s s' := by
  intro cs
  induction cs with
  | nil =>
      intro acc s ns s' h
      simp only [renderList, LRes.ok.injEq] at h
      obtain ⟨-, rfl⟩ := h
      exact renderInv_refl s
  | cons c t ih =>
      intro acc s ns s' h
      simp only [renderList] at h
      cases hc : r c s with
      | ok n0 s0 =>
          rw [hc] at h
          exact renderInv_trans (hr _ _ _ _ hc) (ih _ _ _ _ h)
      | err e s0 => rw [hc] at h; cases h

/-- A successful render pass never writes the container, the Root Binding
or the last-produced-node record, and ends with the Render Cursor as it
found it or cleared. -/
theorem renderToDOM_inv (env : CompEnv) :
    ∀ fuel c s n s', renderToDOM env fuel c s = RRes.ok n s' → renderInv s s' := by
  intro fuel
  induction fuel with
  | zero => intro c s n s' h; simp [renderToDOM] at h
  | succ f ih =>
    have ihL : ∀ cs acc s0 ns s1,
        renderList (fun c' s' => renderToDOM env f c' s') cs acc s0 = LRes.ok ns s1 →
        renderInv s0 s1 :=
      renderList_inv _ (fun c0 s0 n0 s1 h0 => ih c0 s0 n0 s1 h0)
    intro c s n s' h
    cases c with
    | cundef =>
        simp only [renderToDOM, RRes.ok.injEq] at h
        obtain ⟨-, rfl⟩ := h
        exact ⟨Or.inl rfl, rfl, rfl, rfl, rfl⟩
    | text str =>
        simp only [renderToDOM, RRes.ok.injEq] at h
        obtain ⟨-, rfl⟩ := h
        exact ⟨Or.inl rfl, rfl, rfl, rfl, rfl⟩
    | num m =>
        simp only [renderToDOM, RRes.ok.injEq] at h
        obtain ⟨-, rfl⟩ := h
        exact ⟨Or.inl rfl, rfl, rfl, rfl, rfl⟩
    | cnull => simp only [renderToDOM] at h; cases h
    | node v =>
      cases v with
      | mk k props children =>
        cases k with
        | comp g =>
            simp only [renderToDOM] at h
            cases hb : env g with
            | throws => rw [hb] at h; cases h
            | renders inits view =>
                rw [hb] at h
                have h2 := ih _ _ _ _ h
                obtain ⟨hc, hu1, hu2, hu3, hu4⟩ := h2
                have hr := runHooks_fields inits
                  { s with currentComponent := some g, stateIndex := 0 }
                refine ⟨Or.inr ?_, ?_, ?_, ?_, ?_⟩
                · rcases hc with hc | hc <;> simpa using hc
                · exact hu1.trans (by simpa using hr.2.1)
                · exact hu2.trans (by simpa using hr.2.2.1)
                · exact hu3.trans (by simpa using hr.2.2.2.1)
                · exact hu4.trans (by simpa using hr.2.2.2.2)
        | tag t =>
            simp only [renderToDOM] at h
            by_cases ht : t = "fragment"
            · rw [if_pos ht] at h
              cases hrl : renderList (fun c' s' => renderToDOM env f c' s') children []
                  { s with nextId := s.nextId + 1 } with
              | ok ks s1 =>
                  rw [hrl] at h
                  simp only [RRes.ok.injEq] at h
                  obtain ⟨-, rfl⟩ := h
                  have h2 := ihL _ _ _ _ _ hrl
                  obtain ⟨hc, hu1, hu2, hu3, hu4⟩ := h2
                  exact ⟨by simpa using hc, by simpa using hu1, by simpa using hu2,
                    by simpa using hu3, by simpa using hu4⟩
              | err e s1 => rw [hrl] at h; cases h
            · rw [if_neg ht] at h
              cases hap : applyProps t props EAcc.empty with
              | none => rw [hap] at h; cases h
              | some acc =>
                  rw [hap] at h
                  cases hrl : renderList (fun c' s' => renderToDOM env f c' s') children []
                      { s with nextId := s.nextId + 1 } with
                  | err e s1 => rw [hrl] at h; cases h
                  | ok kids s1 =>
                      rw [hrl] at h
                      simp only [RRes.ok.injEq] at h
                      obtain ⟨-, rfl⟩ := h
                      have h2 := ihL _ _ _ _ _ hrl
                      obtain ⟨hc, hu1, hu2, hu3, hu4⟩ := h2
                      have hl := logMounted_fields props s.nextId s1
                      exact ⟨by rw [hl.1]; simpa using hc,
                        by rw [hl.2.1]; simpa using hu1,
                        by rw [hl.2.2.1]; simpa using hu2,
                        by rw [hl.2.2.2.1]; simpa using hu3,
                        by rw [hl.2.2.2.2]; simpa using hu4⟩

/-! ## Claims -/

/-- An environment in which every component body throws; used for
scenarios that never invoke a component. -/
def throwingEnv : CompEnv := fun _ => Body.throws

/-- **C6.** For every kind, props and children list, `createElement`
normalizes `props = null` to an empty mapping, flattens the children
exactly one level (an array argument is spliced in place), drops exactly
the `null` and `undefined` entries, and keeps all other entries in their
original call order (the surviving children are a sublist of the one-level
flattening containing every non-nullish entry); the function is pure, so
there is no other effect. -/
theorem createElement_normalizes (k : Kind) (p : Option Props) (args : List Arg) :
    (createElement k p args).props = p.getD [] ∧
    (createElement k none args).props = [] ∧
    (∀ c ∈ (createElement k p args).children, isNullish c = false) ∧
    (createElement k p args).children.Sublist (flattenOne args) ∧
    (∀ c, isNullish c = false → c ∈ flattenOne args →
      c ∈ (createElement k p args).children) := by
  refine ⟨rfl, rfl, ?_, ?_, ?_⟩
  · intro c hc
    simp only [createElement, VNode.children, List.mem_filter, Bool.not_eq_eq_eq_not,
      Bool.not_true] at hc
    exact hc.2
  · exact List.filter_sublist (flattenOne args)
  · intro c h1 h2
    simp [createElement, VNode.children, List.mem_filter, h1, h2]

def c6args : List Arg :=
  [Arg.single (Child.text "A"), Arg.single Child.cundef,
   Arg.arr [Child.num 1, Child.cnull], Arg.single (Child.text "B")]

/-- Witness for `createElement_normalizes` at a concrete argument list
containing a spliced array and nullish entries. -/
theorem createElement_normalizes_witness :
    Child.text "A" ∈ (createElement (Kind.tag "div") none c6args).children :=
  (createElement_normalizes (Kind.tag "div") none c6args).2.2.2.2 (Child.text "A") rfl
    (List.Mem.head _)

/-- **C2.** Calling a state setter with a value that is reference-equal
(`===`, modelled by equality on `PVal`) to the slot's current value is a
complete no-op: the returned state is the input state, so the slot, the
container, the last-produced-node record and the `_onMounted` log are all
untouched and no render happens. -/
theorem set_equal_value_noop (env : CompEnv) (fuel : Nat) (key : CKey) (idx : Nat)
    (v : PVal) (s : Sys) (h : hookGet key idx s = v) :
    hookSet env fuel key idx v s = SRes.ok s := by
  have h' : getSlot ((lookupStates s.componentStates key).getD []) idx = v := h
  simp [hookSet, h']

def c2sys : Sys := { Sys.init with componentStates := [(some 1, [PVal.num 2])] }

/-- Witness for `set_equal_value_noop`: a setter call with the slot's
current value on a concrete state. -/
theorem set_equal_value_noop_witness :
    hookSet throwingEnv 1 (some 1) 0 (PVal.num 2) c2sys = SRes.ok c2sys :=
  set_equal_value_noop throwingEnv 1 (some 1) 0 (PVal.num 2) c2sys rfl

/-- **C9.** A `useState` invocation with no active Render Cursor
(`currentComponent = null`) does **not** fail: the source performs no
check, silently keys the state store by `null` (the shared `none` key),
stores the slot there and returns a working getter/setter pair.  This
contradicts the claimed `HookCalledOutsideRender` visible failure. -/
theorem useState_outside_render_silent :
    (useStateM (PVal.num 0) Sys.init).1 = ((none : CKey), 0) ∧
    (useStateM (PVal.num 0) Sys.init).2.componentStates = [(none, [PVal.num 0])] ∧
    (useStateM (PVal.num 0) Sys.init).2.stateIndex = 1 :=
  ⟨rfl, rfl, rfl⟩

def c3start : Sys := { Sys.init with currentComponent := some 1 }
def c3afterFirst : Sys := (useStateM (PVal.num 5) c3start).2
def c3afterSetUndef : Sys :=
  (hookSet throwingEnv 1 (some 1) 0 PVal.undef c3afterFirst).sysOf
def c3nextRender : Sys :=
  { c3afterSetUndef with currentComponent := some 1, stateIndex := 0 }

/-- **C3 counterexample.** A slot is initialized to `5`, its setter is
then called with `undefined` (a genuine update: `5 !== undefined`), and on
the next render invocation the subsequent `useState(5)` at the same
(component, slot) pair does **not** leave the slot's current value
(`undefined`) unchanged: it re-initializes it to `5`, because the source
re-runs initialization whenever `states[index] === undefined`. -/
theorem useState_undefined_reinit_cex :
    hookGet (some 1) 0 c3afterFirst = PVal.num 5 ∧
    hookGet (some 1) 0 c3nextRender = PVal.undef ∧
    hookGet (some 1) 0 ((useStateM (PVal.num 5) c3nextRender).2) = PVal.num 5 :=
  ⟨rfl, rfl, rfl⟩

/-- **C3 amended.** The first `useState` call at a (component identity,
slot index) pair initializes the slot to `initialValue`; a subsequent call
leaves the slot unchanged and ignores its argument **provided the slot's
current value is not `undefined`** — a slot currently holding `undefined`
is re-initialized to the supplied `initialValue`.  Each call consumes one
cursor position. -/
theorem useState_slot_rule (init : PVal) (s : Sys) :
    (useStateM init s).1 = (s.currentComponent, s.stateIndex) ∧
    (useStateM init s).2.stateIndex = s.stateIndex + 1 ∧
    hookGet s.currentComponent s.stateIndex ((useStateM init s).2) =
      (if hookGet s.currentComponent s.stateIndex s = PVal.undef then init
       else hookGet s.currentComponent s.stateIndex s) := by
  refine ⟨rfl, by simp [useStateM], ?_⟩
  unfold hookGet useStateM
  cases hl : lookupStates s.componentStates s.currentComponent with
  | none =>
      simp [hl, lookupStates_putStates_self, getSlot_setSlot_self, getSlot_nil]
  | some st =>
      by_cases hs : getSlot st s.stateIndex = PVal.undef
      · simp [hl, hs, lookupStates_putStates_self, getSlot_setSlot_self]
      · simp [hl, hs, lookupStates_putStates_self]

/-- **C5 counterexample.** A component body that throws: `renderToDOM`
propagates the exception with `currentComponent` still set to the
component (the source has no try/finally), so the Render Cursor leaks
into whatever runs next. -/
theorem render_cursor_leak_cex :
    renderToDOM throwingEnv 2 (Child.node (VNode.mk (Kind.comp 7) [] [])) Sys.init
      = RRes.err RErr.exnThrown { Sys.init with currentComponent := some 7 } ∧
    ({ Sys.init with currentComponent := some 7 } : Sys).currentComponent ≠ none :=
  ⟨rfl, by simp⟩

/-- **C5 amended.** Rendering a component descriptor sets the Render
Cursor to (that function, slot index 0) before invoking the body and, on
normal return, clears `currentComponent`, so a successful render never
leaks the cursor; but when the body throws, the error state keeps
`currentComponent = some f` — the cursor is **not** restored on the
exception path. -/
theorem render_cursor_set_and_clear (env : CompEnv) (fuel : Nat) (f : Nat)
    (props : Props) (children : List Child) (s : Sys) :
    (env f = Body.throws →
      renderToDOM env (fuel + 1) (Child.node (VNode.mk (Kind.comp f) props children)) s
        = RRes.err RErr.exnThrown { s with currentComponent := some f, stateIndex := 0 }) ∧
    (∀ n s', renderToDOM env (fuel + 1)
        (Child.node (VNode.mk (Kind.comp f) props children)) s = RRes.ok n s' →
      s'.currentComponent = none) := by
  constructor
  · intro hb; simp [renderToDOM, hb]
  · intro n s' h
    simp only [renderToDOM] at h
    cases hb : env f with
    | throws => rw [hb] at h; cases h
    | renders inits view =>
        rw [hb] at h
        have h2 := renderToDOM_inv env fuel _ _ _ _ h
        rcases h2.1 with hc | hc <;> simpa using hc

/-- Witness for `render_cursor_set_and_clear` on a concrete throwing
component. -/
theorem render_cursor_set_and_clear_witness :
    renderToDOM throwingEnv 3 (Child.node (VNode.mk (Kind.comp 2) [] [])) Sys.init
      = RRes.err RErr.exnThrown { Sys.init with currentComponent := some 2, stateIndex := 0 } :=
  (render_cursor_set_and_clear throwingEnv 2 2 [] [] Sys.init).1 rfl

/-- **C10.** `mount` never removes existing content from its container: a
successful `mount(descriptor, container)` leaves the container's previous
children unchanged as a prefix and appends the newly rendered content
after them (so a second `mount` into the same container leaves the first
rendered tree in place alongside the second). -/
theorem mount_preserves_container (env : CompEnv) (fuel : Nat) (v : VNode) (s s' : Sys)
    (h : mount env fuel v s = SRes.ok s') :
    ∃ ns, s'.container = s.container ++ ns := by
  simp only [mount] at h
  cases hr : renderToDOM env fuel (.node v)
      { s with rootVNode := some v, rootBound := true } with
  | ok n s2 =>
      rw [hr] at h
      simp only [SRes.ok.injEq] at h
      subst h
      have h2 := renderToDOM_inv env fuel _ _ _ _ hr
      have hc : s2.container = s.container := h2.2.1
      refine ⟨spliceOf n, ?_⟩
      show appendChild s2.container n = s.container ++ spliceOf n
      rw [hc, appendChild]
  | err e s2 => rw [hr] at h; cases h

def c10pre : Sys := { Sys.init with container := [NNode.text 100 "existing"] }
def c10v : VNode := VNode.mk (Kind.tag "p") [] [Child.text "second"]

/-- Witness for `mount_preserves_container`: mounting into a container
that already holds a node keeps that node as the first child. -/
theorem mount_preserves_container_witness :
    ∃ ns, ((mount throwingEnv 2 c10v c10pre).sysOf).container = c10pre.container ++ ns :=
  mount_preserves_container throwingEnv 2 c10v c10pre _ rfl

/-- Setting an attribute makes exactly that attribute read back with the
written value (a later write overwrites an earlier one for the same key). -/
theorem lookupAttr_setAttr_self (l : List (String × String)) (q v : String) :
    lookupAttr (setAttr l q v) q = some v := by
  induction l with
  | nil => simp [setAttr, lookupAttr, List.find?]
  | cons a t ih =>
      cases a with
      | mk ak av =>
          by_cases ha : ak = q
          · simp [setAttr, lookupAttr, List.find?, ha]
          · simpa [setAttr, lookupAttr, List.find?, ha] using ih

/-- Setting an attribute leaves every other attribute unchanged: the
per-property writes are independent. -/
theorem lookupAttr_setAttr_other (l : List (String × String)) (q v q' : String)
    (h : q' ≠ q) : lookupAttr (setAttr l q v) q' = lookupAttr l q' := by
  induction l with
  | nil => simp [setAttr, lookupAttr, List.find?, h, Ne.symm h]
  | cons a t ih =>
      cases a with
      | mk ak av =>
          by_cases ha : ak = q
          · subst ha
            simp [setAttr, lookupAttr, List.find?, Ne.symm h]
          · by_cases hb : ak = q'
            · subst hb
              simp [setAttr, lookupAttr, List.find?, ha]
            · simpa [setAttr, lookupAttr, List.find?, ha, hb] using ih

/-- A host-tag descriptor carrying a single property, rendered from the
initial state: the scenario the attribute-law claims quantify over. -/
def oneProp (t k : String) (v : PVal) : Child :=
  Child.node (VNode.mk (Kind.tag t) [(k, v)] [])

/-- **C7 counterexample.** `checked: true` on a host tag does **not**
yield a present, valueless attribute: the source special-cases `checked`
(with `value` and `disabled`) into a live-property write, so the rendered
element's attribute list is empty and the value lands in the property
store instead. -/
theorem checked_true_attribute_cex :
    renderToDOM throwingEnv 1 (oneProp "input" "checked" (PVal.bool true)) Sys.init
      = RRes.ok (NNode.elem 0 "input" [] [("checked", PVal.bool true)] [] none [] [])
          { Sys.init with nextId := 1 } :=
  rfl

/-- **C7 amended.** The boolean attribute law holds for every ordinary
property key — one that is not reserved (`key`/`ref`/`_onMounted`), not an
event key (`on` prefix), and not one of the special-cased keys
`className`, `style`, `value`, `checked`, `disabled`: `true` yields a
present valueless attribute and `false`/`null`/`undefined` yield no
attribute at all.  For `checked` and `disabled` the renderer instead
writes the live element property and performs no attribute write. -/
theorem boolean_attribute_law (t k : String)
    (ht : t ≠ "fragment")
    (h1 : ¬(k = "key" ∨ k = "ref" ∨ k = "_onMounted"))
    (h2 : strStartsWith k "on" = false)
    (h3 : k ≠ "className") (h4 : k ≠ "style")
    (h5 : ¬(k = "value" ∨ k = "checked" ∨ k = "disabled")) :
    (renderToDOM throwingEnv 1 (oneProp t k (PVal.bool true)) Sys.init
      = RRes.ok (NNode.elem 0 t [(k, "")] [] [] none [] []) { Sys.init with nextId := 1 }) ∧
    (renderToDOM throwingEnv 1 (oneProp t k (PVal.bool false)) Sys.init
      = RRes.ok (NNode.elem 0 t [] [] [] none [] []) { Sys.init with nextId := 1 }) ∧
    (renderToDOM throwingEnv 1 (oneProp t k PVal.null) Sys.init
      = RRes.ok (NNode.elem 0 t [] [] [] none [] []) { Sys.init with nextId := 1 }) ∧
    (renderToDOM throwingEnv 1 (oneProp t k PVal.undef) Sys.init
      = RRes.ok (NNode.elem 0 t [] [] [] none [] []) { Sys.init with nextId := 1 }) ∧
    (∀ kb, (kb = "checked" ∨ kb = "disabled") →
      renderToDOM throwingEnv 1 (oneProp t kb (PVal.bool true)) Sys.init
        = RRes.ok (NNode.elem 0 t [] [(kb, PVal.bool true)] [] none [] [])
            { Sys.init with nextId := 1 }) := by
  have hk1 : k ≠ "key" := fun hh => h1 (Or.inl hh)
  have hk2 : k ≠ "ref" := fun hh => h1 (Or.inr (Or.inl hh))
  have hk3 : k ≠ "_onMounted" := fun hh => h1 (Or.inr (Or.inr hh))
  have hk4 : k ≠ "value" := fun hh => h5 (Or.inl hh)
  have hk5 : k ≠ "checked" := fun hh => h5 (Or.inr (Or.inl hh))
  have hk6 : k ≠ "disabled" := fun hh => h5 (Or.inr (Or.inr hh))
  refine ⟨?_, ?_, ?_, ?_, ?_⟩
  · simp [oneProp, renderToDOM, ht, applyProps, applyProp, plainAttrApply, renderList, logMounted,
      lookupProp, List.find?, EAcc.empty, setAttr, Sys.init, hk1, hk2, hk3, hk4, hk5, hk6,
      h2, h3, h4]
  · simp [oneProp, renderToDOM, ht, applyProps, applyProp, plainAttrApply, renderList, logMounted,
      lookupProp, List.find?, EAcc.empty, setAttr, Sys.init, hk1, hk2, hk3, hk4, hk5, hk6,
      h2, h3, h4]
  · simp [oneProp, renderToDOM, ht, applyProps, applyProp, plainAttrApply, renderList, logMounted,
      lookupProp, List.find?, EAcc.empty, setAttr, Sys.init, hk1, hk2, hk3, hk4, hk5, hk6,
      h2, h3, h4]
  · simp [oneProp, renderToDOM, ht, applyProps, applyProp, plainAttrApply, renderList, logMounted,
      lookupProp, List.find?, EAcc.empty, setAttr, Sys.init, hk1, hk2, hk3, hk4, hk5, hk6,
      h2, h3, h4]
  · intro kb hkb
    rcases hkb with rfl | rfl <;>
      simp [oneProp, renderToDOM, ht, applyProps, applyProp, formPropApply, renderList, logMounted,
        lookupProp, List.find?, EAcc.empty, setPropV, Sys.init, strStartsWith,
        List.isPrefixOf]

/-- Witness for `boolean_attribute_law` at the ordinary key `hidden` on a
`div`. -/
theorem boolean_attribute_law_witness :
    renderToDOM throwingEnv 1 (oneProp "div" "hidden" (PVal.bool true)) Sys.init
      = RRes.ok (NNode.elem 0 "div" [("hidden", "")] [] [] none [] [])
          { Sys.init with nextId := 1 } :=
  (boolean_attribute_law "div" "hidden" (by decide) (by decide) (by decide)
    (by decide) (by decide) (by decide)).1

/-- **C8.** A `style` prop with a string value is applied verbatim as the
raw `style` attribute; an object value is applied entry by entry through
the host's per-property style map under the entry's camelCase name (which
is exactly how the host exposes each native style property), each property
set individually — so a later write to a property overwrites an earlier
one while leaving every other property untouched, witnessed by the two
`setAttr` laws. -/
theorem style_prop_applied (sv : String) (oid : Nat) (kvs : List (String × String)) :
    (renderToDOM throwingEnv 1 (oneProp "div" "style" (PVal.str sv)) Sys.init
      = RRes.ok (NNode.elem 0 "div" [("style", sv)] [] [] none [] [])
          { Sys.init with nextId := 1 }) ∧
    (renderToDOM throwingEnv 1 (oneProp "div" "style" (PVal.obj oid kvs)) Sys.init
      = RRes.ok (NNode.elem 0 "div" [] [] [] none
          (kvs.foldl (fun st p => setAttr st p.1 p.2) []) [])
          { Sys.init with nextId := 1 }) ∧
    (∀ l q v, lookupAttr (setAttr l q v) q = some v) ∧
    (∀ l q v q', q' ≠ q → lookupAttr (setAttr l q v) q' = lookupAttr l q') :=
  ⟨rfl, rfl, lookupAttr_setAttr_self, lookupAttr_setAttr_other⟩

/-- Witness for `style_prop_applied`: a second write to `backgroundColor`
overwrites the first and leaves `fontSize` alone. -/
theorem style_prop_applied_witness :
    lookupAttr (setAttr [("backgroundColor", "blue"), ("fontSize", "16px")]
        "backgroundColor" "red") "backgroundColor" = some "red" ∧
    lookupAttr (setAttr [("backgroundColor", "blue"), ("fontSize", "16px")]
        "backgroundColor" "red") "fontSize"
      = lookupAttr [("backgroundColor", "blue"), ("fontSize", "16px")] "fontSize" :=
  ⟨(style_prop_applied "" 0 []).2.2.1 [("backgroundColor", "blue"), ("fontSize", "16px")]
      "backgroundColor" "red",
   (style_prop_applied "" 0 []).2.2.2 [("backgroundColor", "blue"), ("fontSize", "16px")]
      "backgroundColor" "red" "fontSize" (by decide)⟩

/-! ### C1: mount and the first re-render -/

def c1env : CompEnv := fun _ =>
  Body.renders [PVal.num 0] (fun get =>
    VNode.mk (Kind.tag "div") [] [Child.text (pvalToString (get 0))])

def c1tree : VNode := VNode.mk (Kind.comp 1) [] []

def c1pre : Sys := { Sys.init with container := [NNode.text 100 "sibling"] }

def c1mounted : Sys := (mount c1env 5 c1tree c1pre).sysOf

def c1afterSet : Sys := (hookSet c1env 5 (some 1) 0 (PVal.num 1) c1mounted).sysOf

/-- **C1.** `mount` records the Root Binding, renders and appends — but it
does **not** record the produced node as the "last produced node"
(`renderedNode` stays `none`), so the first state-triggered re-render
after `mount` finds no previously produced node and takes the clearing
branch: it wipes the container (destroying the pre-existing sibling) and
appends the new node fresh, instead of replacing the mounted node in
place.  The in-source comment "Replace only the rendered node, not entire
container" documents the replace-in-place intent that this missing
assignment defeats. -/
theorem mount_lastnode_bug :
    (mount c1env 5 c1tree c1pre).isOk = true ∧
    c1mounted.renderedNode = none ∧
    c1mounted.container =
      [NNode.text 100 "sibling",
       NNode.elem 0 "div" [] [] [] none [] [NNode.text 1 "0"]] ∧
    (hookSet c1env 5 (some 1) 0 (PVal.num 1) c1mounted).isOk = true ∧
    c1afterSet.container = [NNode.elem 2 "div" [] [] [] none [] [NNode.text 3 "1"]] ∧
    c1afterSet.renderedNode = some 2 :=
  ⟨rfl, rfl, rfl, rfl, rfl, rfl⟩

/-! ### C4: state sharing between instances of one component function -/

/-- A component body displaying its single state slot: `useState(init)`
then a `span` whose text is the getter's value. -/
def sharedView : (Nat → PVal) → VNode := fun get =>
  VNode.mk (Kind.tag "span") [] [Child.text (pvalToString (get 0))]

def c4env (init : PVal) : CompEnv := fun _ => Body.renders [init] sharedView

/-- Two descriptors whose kind is the same component function `f`, with
arbitrary (distinct) props and children, mounted side by side. -/
def c4tree (f : Nat) (p1 p2 : Props) (cs1 cs2 : List Child) : VNode :=
  VNode.mk (Kind.tag "div") []
    [Child.node (VNode.mk (Kind.comp f) p1 cs1),
     Child.node (VNode.mk (Kind.comp f) p2 cs2)]

def c4afterMount (f : Nat) (init : PVal) (p1 p2 : Props) (cs1 cs2 : List Child) : SRes :=
  mount (c4env init) 6 (c4tree f p1 p2 cs1 cs2) Sys.init

def c4afterSet (f : Nat) (init w : PVal) (p1 p2 : Props) (cs1 cs2 : List Child) : SRes :=
  hookSet (c4env init) 6 (some f) 0 w (c4afterMount f init p1 p2 cs1 cs2).sysOf

/-- **C4.** For every component function `f` and every pair of descriptors
whose kind is `f` — regardless of their props and children — both
instances read and write the single state-slot list keyed by `f`: after
mounting, slot 0 holds the shared `init`; a state update made through one
instance's setter (the setter captured (f, 0)) is observed by the other
instance's getter on the next render, so the re-rendered tree shows the
new value in **both** instances. -/
theorem same_component_shares_state (f : Nat) (init w : PVal) (p1 p2 : Props)
    (cs1 cs2 : List Child) (hw : w ≠ PVal.undef) (hiw : init ≠ w) :
    (c4afterMount f init p1 p2 cs1 cs2).isOk = true ∧
    hookGet (some f) 0 (c4afterMount f init p1 p2 cs1 cs2).sysOf = init ∧
    (c4afterSet f init w p1 p2 cs1 cs2).isOk = true ∧
    hookGet (some f) 0 (c4afterSet f init w p1 p2 cs1 cs2).sysOf = w ∧
    (c4afterSet f init w p1 p2 cs1 cs2).sysOf.container =
      [NNode.elem 5 "div" [] [] [] none []
        [NNode.elem 6 "span" [] [] [] none [] [NNode.text 7 (pvalToString w)],
         NNode.elem 8 "span" [] [] [] none [] [NNode.text 9 (pvalToString w)]]] := by
  by_cases hinit : init = PVal.undef <;>
    simp [c4afterMount, c4afterSet, c4env, c4tree, sharedView, mount, renderToDOM, hookSet,
      useStateM, runHooks, hookGet, lookupStates, putStates, getSlot, setSlot, appendChild,
      renderList, applyProps, applyProp, eventApply, styleApply, formPropApply,
      plainAttrApply, lookupProp, logMounted, EAcc.empty, spliceOf, Sys.init, hinit, hw, hiw,
      Ne.symm hiw, Ne.symm hw, SRes.sysOf, SRes.isOk, hasParent, replaceInContainer,
      NNode.nid]

/-- Witness for `same_component_shares_state` at concrete values: after
setting slot 0 to `3` through the first instance's setter, both rendered
spans read `"3"`. -/
theorem same_component_shares_state_witness :
    (c4afterSet 1 (PVal.num 0) (PVal.num 3) [("a", PVal.num 1)] [] [] []).sysOf.container =
      [NNode.elem 5 "div" [] [] [] none []
        [NNode.elem 6 "span" [] [] [] none [] [NNode.text 7 (pvalToString (PVal.num 3))],
         NNode.elem 8 "span" [] [] [] none []
           [NNode.text 9 (pvalToString (PVal.num 3))]]] :=
  (same_component_shares_state 1 (PVal.num 0) (PVal.num 3) [("a", PVal.num 1)] [] [] []
    (by decide) (by decide)).2.2.2.2

end JsxRuntime
